import Mathlib

/-!
# Verification of the yksom runtime core

A shallow embedding, in Lean 4, of the parts of the yksom SOM-VM sources that
the specification's claims are about:

* `src/lib/vm/val.rs` — the tagged-pointer value representation
  (`Val::from_isize`, `Val::as_isize`, `ValKind`);
* `src/lib/vm/core.rs` — the interpreter (`VM::exec_user`'s `Send`,
  `ClosureReturn`, `VarSet`, `InstVarSet` arms, `Frame::new`,
  `Frame::var_lookup`, `Frame::var_set`, `Closure`);
* `src/lib/vm/objects/string_.rs` — `String_::ref_equals`,
  `String_::concatenate`;
* `src/lib/vm/objects/array.rs` — `Array::at`, `Array::put`;
* `src/lib/compiler/ast_to_instrs.rs` — `Compiler::c_block`, `Compiler::c_expr`.

Machine integers are modelled as `Nat`/`Int` with explicit two's-complement
conversion at word width 64; `Gc` pointers are modelled as indices into an
explicit store, so Rust's `Gc::ptr_eq` becomes equality of indices; Rust
panics and undefined behaviour are modelled as `Option.none`/a dedicated
`crash` constructor; fallible operations return `Except`.
-/

namespace Yksom

/-! ## The value representation (`src/lib/vm/val.rs`)

On a 64-bit target a `Val` is one machine word whose low `TAG_BITSIZE` bits
are the tag.  We model the word as a `Nat` below `2 ^ 64`.  A `GCBOX`-tagged
word is a pointer to a heap object; the only heap object these claims need is
the boxed `Int`, which we model as carrying its `isize` payload directly.
-/

/-- val.rs: `pub const BITSIZE: usize = 64;` (64-bit target). -/
def BITSIZE : Nat := 64

/-- val.rs: `pub const TAG_BITSIZE: usize = 3;`. -/
def TAG_BITSIZE : Nat := 3

/-- val.rs: `pub const TAG_BITMASK: usize = (1 << 3) - 1;`. -/
def TAG_BITMASK : Nat := (1 <<< 3) - 1

/-- Rust `i as usize` on a 64-bit signed integer: two's-complement
reinterpretation of `i` as an unsigned 64-bit word. -/
def usizeOfIsize (i : Int) : Nat := (i % (2 ^ 64)).toNat

/-- Rust `n as isize` on an unsigned 64-bit word: two's-complement
reinterpretation of `n` as a signed 64-bit integer. -/
def isizeOfUsize (n : Nat) : Int :=
  if n < 2 ^ 63 then (n : Int) else (n : Int) - 2 ^ 64

/-- val.rs: `pub enum ValKind { GCBOX = 0b000, INT = 0b001 }`. -/
inductive ValKind where
  | GCBOX
  | INT
deriving DecidableEq, Repr

/-- val.rs `Val`: a single tagged machine word.  An `INT`-tagged word is kept
as the word itself (constructor `word`); a `GCBOX`-tagged word is a pointer to
a heap cell, and the only heap cell relevant here is the boxed integer.

The `boxedInt` constructor is modelled from the spec: `Int::boxed_isize` and
the boxed `Int` object live in `src/lib/vm/objects/mod.rs`, which is not under
`src/`; the spec says «`Int` | boxed `isize` when out of the unboxed range»
and «Integers outside the 61-bit range box to a heap `Int`», so the boxed
object simply carries its `isize` and yields it back from `as_isize`. -/
inductive Val where
  | word (val : Nat)
  | boxedInt (i : Int)
deriving DecidableEq, Repr

/-- val.rs `Val::valkind`: the low `TAG_BITSIZE` bits of the word.  A boxed
`Int` is behind a `GCBOX`-tagged pointer. -/
def Val.valkind : Val → ValKind
  | .word v => if v &&& TAG_BITMASK = 1 then .INT else .GCBOX
  | .boxedInt _ => .GCBOX

/-- val.rs `Val::from_isize`: if the top `TAG_BITSIZE` bits of `i` are all
zero or all one, store `(i as usize) << TAG_BITSIZE | ValKind::INT`; else box
via `Int::boxed_isize`. -/
def Val.from_isize (i : Int) : Val :=
  let top_bits := usizeOfIsize i &&& (TAG_BITMASK <<< (BITSIZE - TAG_BITSIZE))
  if top_bits = 0 ∨ top_bits = TAG_BITMASK <<< (BITSIZE - TAG_BITSIZE) then
    -- top_bits == 0: A positive integer that fits in the tagging scheme
    -- top_bits all set to 1: A negative integer that fits in the tagging scheme
    .word (((usizeOfIsize i <<< TAG_BITSIZE) % 2 ^ 64) ||| 1)
  else
    .boxedInt i

/-- val.rs `Val::as_isize`: on the `INT` tag, shift the tag away and, when the
top bit of the word is set, pad the top `TAG_BITSIZE` bits with ones; on
`GCBOX`, defer to the boxed object (for a boxed `Int`, its payload). -/
def Val.as_isize : Val → Int
  | .word v =>
    if v &&& (1 <<< (BITSIZE - 1)) = 0 then
      isizeOfUsize (v >>> TAG_BITSIZE)
    else
      isizeOfUsize ((v >>> TAG_BITSIZE) ||| (TAG_BITMASK <<< (BITSIZE - TAG_BITSIZE)))
  | .boxedInt i => i

end Yksom

namespace Yksom

/-! ## The interpreter core (`src/lib/vm/core.rs`)

Modelling conventions for this section:

* The operand stack (`VM::stack`, a `Vec<Val>` with the top at the end) is a
  `List` whose *head* is the top of the stack; `Vec::truncate i` (keep the
  bottom `i` values) becomes `stackTruncate`.
* The frame stack (`VM::frames`) is likewise a `List` whose head is the top
  frame, so the source's `frames.iter().rev()` walk (top towards bottom) is
  plain list recursion, and `current_frame()` is `List.head?`.
* `Gc<Closure>` and `Gc<Vars>` handles are indices into an explicit `Store`;
  `Gc::ptr_eq` is equality of indices.  Dereferencing a handle is an
  optional-index lookup `xs[i]?` on the store (it cannot fail for handles the
  VM actually creates).
* Rust panics and `get_unchecked` on out-of-range indices are `Option.none`.
-/

/-- Interpreter-level values: the illegal placeholder (`Val::illegal()`, the
all-zero word), an unboxed integer, or a handle to some heap object. -/
inductive RVal where
  | illegal
  | int (i : Int)
  | obj (id : Nat)
deriving DecidableEq, Repr

/-- val.rs `Val::is_illegal`. -/
def RVal.is_illegal : RVal → Bool
  | .illegal => true
  | _ => false

/-- core.rs `Closure`: an optional parent handle plus a shared `Gc<Vars>`
cell (`vars` is the index of that cell in the store). -/
structure Closure where
  parent : Option Nat
  vars : Nat
deriving DecidableEq, Repr

/-- core.rs `Frame`: the lazily updated stack pointer and the
`Gc<Closure>` handle (an index into the store). -/
structure Frame where
  sp : Nat
  closure : Nat
deriving DecidableEq, Repr

/-- The allocation arena for `Gc<Closure>` and `Gc<Vars>` cells.  `Gc::new`
appends at the end; a handle is the index of its cell. -/
structure Store where
  closures : List Closure
  varss : List (List RVal)
deriving DecidableEq, Repr

/-- core.rs `Frame::closure(depth)`: walk `depth` parent links starting from
this frame's closure (`depth = 0` returns the frame's own closure).  The
source `unwrap`s a missing parent; that panic is `none` here. -/
def closureChain (st : Store) : Nat → Nat → Option Nat
  | cid, 0 => some cid
  | cid, depth + 1 =>
    match st.closures[cid]? with
    | none => none
    | some c =>
      match c.parent with
      | none => none
      | some p => closureChain st p depth

/-- core.rs `Closure::get_var` reached through a closure handle: read slot
`var` of the closure's shared `Vars` cell (`get_unchecked`, so out of range is
`none`). -/
def storeGetVar (st : Store) (cid : Nat) (var : Nat) : Option RVal :=
  match st.closures[cid]? with
  | none => none
  | some c =>
    match st.varss[c.vars]? with
    | none => none
    | some vs => vs[var]?

/-- core.rs `Closure::set_var` reached through a closure handle: write slot
`var` of the closure's shared `Vars` cell (`get_unchecked_mut`, so out of
range is `none`). -/
def storeSetVar (st : Store) (cid : Nat) (var : Nat) (v : RVal) : Option Store :=
  match st.closures[cid]? with
  | none => none
  | some c =>
    match st.varss[c.vars]? with
    | none => none
    | some vs =>
      if var < vs.length then
        some { st with varss := st.varss.set c.vars (vs.set var v) }
      else
        none

/-- The `VMError` kinds these claims touch (core.rs `enum VMError`). -/
inductive VMError where
  | unassignedVar (n : Nat)
  | unknownMethod (name : String)
  | indexOutOfBounds
  | typeError
deriving DecidableEq, Repr

/-- core.rs `Frame::var_lookup`: follow the chain `depth` levels, read slot
`var`; an illegal slot yields `UnassignedVar(var)`, otherwise the value. -/
def Frame.var_lookup (st : Store) (f : Frame) (depth var : Nat) :
    Option (Except VMError RVal) :=
  match closureChain st f.closure depth with
  | none => none
  | some cid =>
    match storeGetVar st cid var with
    | none => none
    | some v =>
      some (if v.is_illegal then .error (.unassignedVar var) else .ok v)

/-- core.rs `Frame::var_set`: follow the chain `depth` levels and store `val`
into slot `var`. -/
def Frame.var_set (st : Store) (f : Frame) (depth var : Nat) (val : RVal) :
    Option Store :=
  match closureChain st f.closure depth with
  | none => none
  | some cid => storeSetVar st cid var val

/-- core.rs `Frame::new`, the `vars` vector: `num_vars` illegal slots; for a
method, slot 0 becomes `self_val` and slot `i + 1` becomes `args[i]`; for a
block, slot `i` becomes `args[i]`.  The source's `vars[_] = _` indexing panics
when `num_vars` is too small; that is `none` here. -/
def frameNewVars (is_method : Bool) (self_val : RVal) (num_vars : Nat)
    (args : List RVal) : Option (List RVal) :=
  let vars := List.replicate num_vars RVal.illegal
  if is_method then
    if num_vars = 0 then none
    else if num_vars < args.length + 1 then none
    else some (writeArgs (vars.set 0 self_val) 1 args)
  else
    if num_vars < args.length then none
    else some (writeArgs vars 0 args)
where
  /-- the `for (i, arg) in args.iter().enumerate()` loop: write `args`
  consecutively starting at index `start`. -/
  writeArgs : List RVal → Nat → List RVal → List RVal
    | vs, _, [] => vs
    | vs, i, a :: rest => writeArgs (vs.set i a) (i + 1) rest

/-- core.rs `Frame::new`: build the vars vector and allocate a fresh
`Closure` (hence also a fresh `Vars` cell) with the given parent. -/
def Frame.new (st : Store) (is_method : Bool) (self_val : RVal)
    (parent_closure : Option Nat) (num_vars : Nat) (args : List RVal) :
    Option (Frame × Store) :=
  match frameNewVars is_method self_val num_vars args with
  | none => none
  | some vars =>
    some ({ sp := 0, closure := st.closures.length },
      { closures := st.closures ++ [{ parent := parent_closure, vars := st.varss.length }],
        varss := st.varss ++ [vars] })

/-- `VM::stack_truncate i` = `Vec::truncate i`: keep the bottom `i` values
(the last `i` of our top-first list); a no-op when `i` exceeds the height. -/
def stackTruncate (s : List RVal) (i : Nat) : List RVal := s.drop (s.length - i)

/-- The outcome of the `Instr::ClosureReturn` arm of `VM::exec_user`. -/
inductive CRStep where
  /-- a frame matched at depth `frame_depth` (from the top): the resulting
  operand stack, and `SendReturn::ClosureReturn(frame_depth)` is returned -/
  | ret (frame_depth : Nat) (stack : List RVal)
  /-- no frame matched: `panic!("Return from escaped block")` -/
  | escapedBlock
deriving DecidableEq, Repr

/-- The `for (frame_depth, pframe) in frames.iter().rev().enumerate()` search:
first frame, from the top of the frame stack towards the bottom, whose closure
handle is `Gc::ptr_eq` to `target`; returns its depth-from-top and the frame.
(Our frame list is top-first, so the reversed iteration is plain recursion.) -/
def findFrame : List Frame → Nat → Option (Nat × Frame)
  | [], _ => none
  | f :: fs, target =>
    if f.closure = target then some (0, f)
    else
      match findFrame fs target with
      | none => none
      | some (k, g) => some (k + 1, g)

/-- core.rs `VM::exec_user`, `Instr::ClosureReturn(closure_depth)` arm: pop
the return value, resolve the current frame's `closure_depth`-th ancestor
closure, walk the frame stack top-to-bottom for the first pointer-identical
closure; truncate the operand stack to that frame's `sp`, push the value
back, and report the matched depth — or panic on an escaped block. -/
def closureReturnStep (st : Store) (frames : List Frame) (stack : List RVal)
    (closure_depth : Nat) : Option CRStep :=
  match stack with
  | [] => none
  | v :: rest =>
    match frames.head? with
    | none => none
    | some cf =>
      match closureChain st cf.closure closure_depth with
      | none => none
      | some parent_closure =>
        match findFrame frames parent_closure with
        | some (frame_depth, pframe) =>
          some (.ret frame_depth (v :: stackTruncate rest pframe.sp))
        | none => some .escapedBlock

/-- compiler/instrs.rs `Primitive` (that file is not under src/): only
`Restart` is inspected by the `Send` arm; every other primitive is dispatched
to `exec_primitive`, which these claims do not model. -/
inductive Prim where
  | restart
  | other (tag : Nat)
deriving DecidableEq, Repr

/-- objects `MethodBody` as consumed by core.rs: a primitive, or user code
with `num_vars` and `bytecode_off`. -/
inductive MethBody where
  | primitive (p : Prim)
  | user (num_vars : Nat) (bytecode_off : Nat)
deriving DecidableEq, Repr

/-- `current_frame().set_sp(sp)`: update the top frame's stack pointer. -/
def setSpTop (frames : List Frame) (sp : Nat) : List Frame :=
  match frames with
  | [] => []
  | f :: fs => { f with sp := sp } :: fs

/-- The outcome of the `Instr::Send` arm of `VM::exec_user`, stopping where
control would transfer (the recursive `exec_user` call / `exec_primitive`). -/
inductive SendStep where
  /-- `Primitive::Restart`: `pc` is rewound to `meth_start_pc`, the operand
  stack truncated to `stack_start`, and the loop `continue`s -/
  | restart (pc : Nat) (stack : List RVal) (frames : List Frame)
  /-- a user method: the new frame has been pushed; execution would continue
  at `bytecode_off` -/
  | callUser (bytecode_off : Nat) (stack : List RVal) (frames : List Frame)
      (store : Store)
  /-- some other primitive is dispatched to `exec_primitive` -/
  | primitive (p : Prim) (rcv : RVal) (args : List RVal)
  /-- method lookup failed (`stry!` propagates the error) -/
  | lookupErr (e : VMError)
deriving DecidableEq, Repr

/-- core.rs `VM::exec_user`, `Instr::Send(moff)` arm.  `resolve` stands for
`rcv.get_class(self)` followed by `Class::get_method` (code not under src/:
per the spec, look the selector up in the receiver's class's method map).

The source drains the top `nargs` stack values (drained bottom-first) and
`.rev()`s them, so the `args` vector holds the arguments *top-first*: with our
top-first stack that vector is exactly `stack.take nargs`, whose index 0 is
the **last**-pushed argument.  It then pops the receiver, resolves the method,
records the caller's stack height in the current frame's `sp`, and either
performs `Restart`, dispatches a primitive, or pushes a `Frame::new`-made
frame for a user method. -/
def sendStep (resolve : RVal → String → Option MethBody) (st : Store)
    (frames : List Frame) (stack : List RVal) (name : String) (nargs : Nat)
    (meth_start_pc stack_start : Nat) : Option SendStep :=
  if nargs + 1 ≤ stack.length then
    let args := stack.take nargs
    match stack.drop nargs with
    | [] => none
    | rcv :: stack' =>
      match frames.head?, resolve rcv name with
      | none, _ => none
      | some _, none => some (.lookupErr (.unknownMethod name))
      | some _, some mb =>
        let frames' := setSpTop frames stack'.length
        match mb with
        | .primitive .restart =>
          some (.restart meth_start_pc (stackTruncate stack' stack_start) frames')
        | .primitive p => some (.primitive p rcv args)
        | .user num_vars bytecode_off =>
          match Frame.new st true rcv none num_vars args with
          | none => none
          | some (nf, st') =>
            some (.callUser bytecode_off stack' (nf :: frames') st')
  else
    none

/-- core.rs `VM::exec_user`, `Instr::VarSet(d, n)` arm: `stack_peek` the top
value — without popping it — and `var_set` it into slot `n` at depth `d` of
the current frame; the operand stack is returned exactly as it was. -/
def varSetStep (st : Store) (frames : List Frame) (stack : List RVal)
    (d n : Nat) : Option (Store × List RVal) :=
  match stack with
  | [] => none
  | v :: _ =>
    match frames.head? with
    | none => none
    | some cf =>
      match Frame.var_set st cf d n v with
      | none => none
      | some st' => some (st', stack)

/-- Modelled from the spec: `Inst::inst_var_set` lives in
`src/lib/vm/objects/mod.rs`, which is not under src/.  Per the spec's data
model, an `Inst` carries a «vector of instance-variable slots» and
`InstVarSet n` assigns into slot `n`. -/
def instVarSet (ivars : List RVal) (n : Nat) (v : RVal) : Option (List RVal) :=
  if n < ivars.length then some (ivars.set n v) else none

/-- core.rs `VM::exec_user`, `Instr::InstVarSet(n)` arm: downcast the current
receiver to an `Inst` (here: index `rcv` into the heap of instance-variable
vectors) and `inst_var_set(n, self.stack_peek())`; the stack is not popped. -/
def instVarSetStep (insts : List (List RVal)) (rcv : Nat)
    (stack : List RVal) (n : Nat) : Option (List (List RVal) × List RVal) :=
  match stack with
  | [] => none
  | v :: _ =>
    match insts[rcv]? with
    | none => none
    | some ivars =>
      match instVarSet ivars n v with
      | none => none
      | some ivars' => some (insts.set rcv ivars', stack)

/-! ## Strings (`src/lib/vm/objects/string_.rs`) -/

/-- string_.rs `String_`: the contents and the `is_str` flag (a string when
`true`, a symbol when `false`). -/
structure StringObj where
  s : String
  is_str : Bool
deriving DecidableEq, Repr

/-- A heap of `String_` objects; a `Val` referring to a string is the index
of its cell.  Distinct indices are distinct heap objects even when their
contents coincide. -/
abbrev StrHeap := List StringObj

/-- string_.rs `String_::ref_equals`: downcast the other value to a
`String_` (a failed downcast is a `TypeError`) and compare the `is_str` flags
and the contents — *not* the identities. -/
def StringObj.ref_equals (heap : StrHeap) (self other : Nat) :
    Except VMError Bool :=
  match heap[self]?, heap[other]? with
  | some st, some ot => .ok (st.is_str == ot.is_str && st.s == ot.s)
  | _, _ => .error .typeError

/-- string_.rs `String_::concatenate`: downcast the argument; if the
receiver's contents are empty return the argument value itself; else if the
argument's contents are empty return `Val::recover(self)` (the receiver
itself); otherwise allocate a fresh string — `String_::new(vm, new, true)`,
so the result is a string even when an operand was a symbol — whose contents
are the receiver's followed by the argument's. -/
def StringObj.concatenate (heap : StrHeap) (self other : Nat) :
    Except VMError (Nat × StrHeap) :=
  match heap[self]?, heap[other]? with
  | some st, some ot =>
    if st.s.isEmpty then .ok (other, heap)
    else if ot.s.isEmpty then .ok (self, heap)
    else .ok (heap.length, heap ++ [⟨st.s ++ ot.s, true⟩])
  | _, _ => .error .typeError

/-- Modelled from the spec: the default `Obj::ref_equals` lives in
`src/lib/vm/objects/mod.rs`, which is not under src/; the spec says
«ref-equality is identity», i.e. pointer identity of the two handles. -/
def objRefEqualsDefault (a b : Nat) : Bool := a == b

/-! ## Arrays (`src/lib/vm/objects/array.rs`) -/

/-- The result of a Rust call that can return a value, return a `VMError`,
or panic (`crash`). -/
inductive RustRes (α : Type) where
  | ok (v : α)
  | err (e : VMError)
  | crash
deriving DecidableEq, Repr

/-- array.rs `Array`: the backing vector and the stored `length` field. -/
structure ArrayObj where
  arr : List RVal
  length : Nat
deriving DecidableEq, Repr

/-- array.rs: the bounds test of `Array::at` and `Array::put`, exactly as
written in the source — a *conjunction*:
`index < 1 && index > self.length && index > self.arr.len() + 1`. -/
def arrayBoundsErr (index length arrLen : Nat) : Bool :=
  index < 1 && index > length && index > arrLen + 1

/-- array.rs `Array::at`: run the bounds test; when it does not trigger,
evaluate `self.arr[index - 1]` (`index = 0` underflows the `usize`
subtraction and out-of-range `Vec` indexing panics: both are `crash`). -/
def ArrayObj.at (a : ArrayObj) (index : Nat) : RustRes RVal :=
  if arrayBoundsErr index a.length a.arr.length then
    .err .indexOutOfBounds
  else if index = 0 then .crash
  else
    match a.arr[index - 1]? with
    | some v => .ok v
    | none => .crash

/-- array.rs `Array::put`: run the same bounds test; then copy the backing
vector, pushing at the end when `index = arr.len() + 1` and otherwise
replacing position `index - 1` (`remove` then `insert`, which panics when
`index - 1` is out of range); the result keeps the receiver's `length`. -/
def ArrayObj.put (a : ArrayObj) (index : Nat) (v : RVal) : RustRes ArrayObj :=
  if arrayBoundsErr index a.length a.arr.length then
    .err .indexOutOfBounds
  else if index = a.arr.length + 1 then
    .ok ⟨a.arr ++ [v], a.length⟩
  else if index = 0 then .crash
  else if index - 1 < a.arr.length then
    .ok ⟨a.arr.set (index - 1) v, a.length⟩
  else .crash

/-! ## The compiler (`src/lib/compiler/ast_to_instrs.rs`)

`Lexeme`s are modelled as the source text they resolve to (`lexer.lexeme_str`
is the identity).  `isize`/`f64` literal parsing is external `std` behaviour
and is abstracted as the parameters `parseIsize`/`parseF64` (a `none` result
is the `Err(e)` branch); the `f64` payload of a `Double` instruction is kept
as its source text.  The per-`Send` inline-cache cell (`UnsafeCell<Option<…>>`)
carries no compile-time content and is omitted from `Instr`. -/

/-- compiler/instrs.rs `Builtin`. -/
inductive BuiltinK where
  | nilB
  | falseB
  | systemB
  | trueB
deriving DecidableEq, Repr

/-- compiler/instrs.rs `Instr` (the file is not under src/; the opcodes are
those emitted by ast_to_instrs.rs and listed in the spec's §3 table). -/
inductive Instr where
  | block (idx : Nat)
  | builtin (b : BuiltinK)
  | closureRet (d : Nat)
  | double (d : String)
  | int (i : Int)
  | instVarLookup (n : Nat)
  | instVarSet (n : Nat)
  | pop
  | ret
  | send (idx : Nat)
  | str (idx : Nat)
  | varLookup (d n : Nat)
  | varSet (d n : Nat)
deriving DecidableEq, Repr

/-- objects `BlockInfo` as reserved and patched by the compiler. -/
structure BlockInfo where
  bytecode_off : Nat
  bytecode_end : Nat
  num_params : Nat
  num_vars : Nat
  max_stack : Nat
deriving DecidableEq, Repr

/-- ast.rs `Expr`, restricted to the constructors `Compiler::c_expr` handles
(this snapshot of ast_to_instrs.rs has no `Symbol` arm). -/
inductive Expr where
  | assign (id : String) (expr : Expr)
  | binaryMsg (lhs : Expr) (op : String) (rhs : Expr)
  | blockE (params : List String) (vars : List String) (exprs : List Expr)
  | doubleLit (is_negative : Bool) (val : String)
  | intLit (is_negative : Bool) (val : String)
  | keywordMsg (receiver : Expr) (msglist : List (String × Expr))
  | unaryMsg (receiver : Expr) (ids : List String)
  | retE (expr : Expr)
  | strLit (lexeme : String)
  | varLookupE (lexeme : String)

/-- The mutable fields of `Compiler`: the instruction buffer, the two intern
tables (`IndexMap`s, kept as their keys in insertion order — the stored value
of a key is always its index), the block-info table, the scope stack (scope =
association list name ↦ slot; the class's instance variables sit at index 0),
and the closure-nesting depth. -/
structure CState where
  instrs : List Instr
  sends : List (String × Nat)
  strings : List String
  blocks : List BlockInfo
  varsStack : List (List (String × Nat))
  closureDepth : Nat
deriving DecidableEq, Repr

/-- `self.instrs.push(i)`. -/
def pushInstr (st : CState) (i : Instr) : CState :=
  { st with instrs := st.instrs ++ [i] }

/-- ast_to_instrs.rs `Compiler::send_off`: the index of an existing
`(selector, arity)` key, else insert it at the end. -/
def sendOff (st : CState) (m : String × Nat) : Nat × CState :=
  match st.sends.indexOf? m with
  | some i => (i, st)
  | none => (st.sends.length, { st with sends := st.sends ++ [m] })

/-- ast_to_instrs.rs `Compiler::string_off`: same interning for strings. -/
def stringOff (st : CState) (c : String) : Nat × CState :=
  match st.strings.indexOf? c with
  | some i => (i, st)
  | none => (st.strings.length, { st with strings := st.strings ++ [c] })

/-- The compile errors `c_block`/`c_expr` produce (lexeme positions dropped). -/
inductive CompErr where
  | shadows (name : String)
  | unknownVar (name : String)
  | parseErr (lexeme : String)
deriving DecidableEq, Repr

/-- ast_to_instrs.rs `process_var` (in `c_block`): add a name to the scope
being built; a duplicate is the «shadows another of the same name» error.
The slot is the scope's current size. -/
def processVar (vars : List (String × Nat)) (name : String) :
    Except CompErr (Nat × List (String × Nat)) :=
  if (vars.lookup name).isSome then .error (.shadows name)
  else .ok (vars.length, vars ++ [(name, vars.length)])

/-- the `for lexeme in …` loops over params and local vars: `process_var`
each name in order, short-circuiting on the first error. -/
def processVars (vars : List (String × Nat)) :
    List String → Except CompErr (List (String × Nat))
  | [] => .ok vars
  | l :: rest => do
    let (_, vars') ← processVar vars l
    processVars vars' rest

/-- ast_to_instrs.rs `Compiler::find_var`: walk the scope stack from the
innermost (the end of `vars_stack`) outwards; a hit at stack index `idx`
reports depth `vars_stack.len() - idx - 1`, so depth counts scopes crossed
from the innermost. -/
def findVar (varsStack : List (List (String × Nat))) (name : String) :
    Except CompErr (Nat × Nat) :=
  go 0 varsStack.reverse
where
  go (depth : Nat) : List (List (String × Nat)) → Except CompErr (Nat × Nat)
    | [] => .error (.unknownVar name)
    | scope :: rest =>
      match scope.lookup name with
      | some n => .ok (depth, n)
      | none => go (depth + 1) rest

/-- ast_to_instrs.rs `blocks[block_off].… = …` patching after a nested block
body has been compiled. -/
def blocksPatch (bs : List BlockInfo) (i : Nat)
    (bcEnd num_vars max_stack : Nat) : List BlockInfo :=
  match bs[i]? with
  | some b => bs.set i
      { b with bytecode_end := bcEnd, num_vars := num_vars, max_stack := max_stack }
  | none => bs

/-- the `for id in ids` loop of the `UnaryMsg` arm: intern each selector with
arity 0 and emit its `Send`. -/
def unarySends : List String → CState → CState
  | [], st => st
  | id :: rest, st =>
    let (off, st1) := sendOff st (id, 0)
    unarySends rest (pushInstr st1 (.send off))

section CompilerFns

variable (parseIsize : String → Option Int) (parseF64 : String → Option String)

mutual

/-- ast_to_instrs.rs `Compiler::c_expr`: lower one expression, returning its
max-stack contribution. -/
def cExpr : Expr → CState → Except CompErr (Nat × CState)
  | .assign id e, st => do
    let (depth, var_num) ← findVar st.varsStack id
    let (max_stack, st1) ← cExpr e st
    let st2 :=
      if depth = st1.varsStack.length - 1 then pushInstr st1 (.instVarSet var_num)
      else pushInstr st1 (.varSet depth var_num)
    .ok (max_stack, st2)
  | .binaryMsg lhs op rhs, st => do
    let (s1, st1) ← cExpr lhs st
    let (s2, st2) ← cExpr rhs st1
    let stack_size := max s1 (1 + s2)
    let (off, st3) := sendOff st2 (op, 1)
    .ok (stack_size, pushInstr st3 (.send off))
  | .blockE params vars exprs, st => do
    let block_off := st.blocks.length
    let st1 := pushInstr st (.block block_off)
    let st2 := { st1 with
      blocks := st1.blocks ++ [BlockInfo.mk st1.instrs.length 0 params.length 0 0] }
    let st3 := { st2 with closureDepth := st2.closureDepth + 1 }
    let ((num_vars, max_stack), st4) ← cBlock false params vars exprs st3
    let st5 := { st4 with closureDepth := st4.closureDepth - 1 }
    let st6 := { st5 with
      blocks := blocksPatch st5.blocks block_off st5.instrs.length num_vars max_stack }
    .ok (1, st6)
  | .doubleLit is_negative val, st =>
    let s := if is_negative then "-" ++ val else val
    match parseF64 s with
    | some d => .ok (1, pushInstr st (.double d))
    | none => .error (.parseErr val)
  | .intLit is_negative val, st =>
    match parseIsize val with
    | some i => .ok (1, pushInstr st (.int (if is_negative then 0 - i else i)))
    | none => .error (.parseErr val)
  | .keywordMsg receiver msglist, st => do
    let (ms, st1) ← cExpr receiver st
    let (mn, max_stack, st2) ← cMsgList msglist 0 "" ms st1
    let (off, st3) := sendOff st2 (mn, msglist.length)
    .ok (max_stack, pushInstr st3 (.send off))
  | .unaryMsg receiver ids, st => do
    let (max_stack, st1) ← cExpr receiver st
    .ok (max_stack, unarySends ids st1)
  | .retE e, st => do
    let (max_stack, st1) ← cExpr e st
    let st2 :=
      if st1.closureDepth = 0 then pushInstr st1 .ret
      else pushInstr st1 (.closureRet st1.closureDepth)
    .ok (max_stack, st2)
  | .strLit lexeme, st =>
    let s := String.mk ((lexeme.toList.drop 1).dropLast)
    let (off, st1) := stringOff st s
    .ok (1, pushInstr st1 (.str off))
  | .varLookupE lexeme, st =>
    match findVar st.varsStack lexeme with
    | .ok (depth, var_num) =>
      let st1 :=
        if depth = st.varsStack.length - 1 then pushInstr st (.instVarLookup var_num)
        else pushInstr st (.varLookup depth var_num)
      .ok (1, st1)
    | .error e =>
      match lexeme with
      | "nil" => .ok (1, pushInstr st (.builtin .nilB))
      | "false" => .ok (1, pushInstr st (.builtin .falseB))
      | "system" => .ok (1, pushInstr st (.builtin .systemB))
      | "true" => .ok (1, pushInstr st (.builtin .trueB))
      | _ => .error e
termination_by e st => (sizeOf e, 0)

/-- ast_to_instrs.rs, the `for (i, (kw, expr)) in msglist.iter().enumerate()`
loop of the `KeywordMsg` arm: accumulate the selector and the rolling
`max_stack = max(max_stack, 1 + i + expr_stack)`. -/
def cMsgList : List (String × Expr) → Nat → String → Nat → CState →
    Except CompErr (String × Nat × CState)
  | [], _, mn, max_stack, st => .ok (mn, max_stack, st)
  | (kw, e) :: rest, i, mn, max_stack, st => do
    let (expr_stack, st1) ← cExpr e st
    cMsgList rest (i + 1) (mn ++ kw) (max max_stack (1 + i + expr_stack)) st1
termination_by l i mn ms st => (sizeOf l, 0)

/-- ast_to_instrs.rs, the `for (i, e) in exprs.iter().enumerate()` loop of
`c_block`: compile each expression, tracking the rolling max stack and
emitting `Pop` between statements (not after the last). -/
def cExprsLoop : List Expr → Nat → CState → Except CompErr (Nat × CState)
  | [], max_stack, st => .ok (max_stack, st)
  | e :: rest, max_stack, st => do
    let (stack_size, st1) ← cExpr e st
    let max_stack := max max_stack stack_size
    if rest.isEmpty then .ok (max_stack, st1)
    else cExprsLoop rest max_stack (pushInstr st1 .pop)
termination_by l ms st => (sizeOf l, 0)

/-- ast_to_instrs.rs `Compiler::c_block`: build the scope (slot 0 is `self`
for a method), push it, compile the expressions with `Pop` between
statements, then — for a method — append `Pop` and `VarLookup(0, 0)` (push
`self`), for a block nothing, and finally `Return`; pop the scope and return
`(num_vars, max_stack)`. -/
def cBlock (is_method : Bool) (params : List String)
    (vars_lexemes : List String) (exprs : List Expr) (st : CState) :
    Except CompErr ((Nat × Nat) × CState) :=
  match processVars (if is_method then [("self", 0)] else []) params with
  | .error e => .error e
  | .ok vars1 =>
    match processVars vars1 vars_lexemes with
    | .error e => .error e
    | .ok vars2 =>
      match cExprsLoop exprs 0 { st with varsStack := st.varsStack ++ [vars2] } with
      | .error e => .error e
      | .ok (max_stack, st2) =>
        let num_vars := vars2.length
        let (max_stack, st3) :=
          if is_method then
            (max max_stack 1, pushInstr (pushInstr st2 .pop) (.varLookup 0 0))
          else (max_stack, st2)
        let st4 := pushInstr st3 .ret
        let st5 := { st4 with varsStack := st4.varsStack.dropLast }
        .ok ((num_vars, max_stack), st5)
termination_by (sizeOf exprs, 1)

end

end CompilerFns

/-- C1: the value round-trip claim fails on the code.  At `i = 2 ^ 60` —
which is outside `[-(2^60), 2^60)` and so, per the claim, should be boxed —
`from_isize` takes the unboxed branch (the top three bits of `2^60` are zero),
producing the tagged word `2^63 + 1` whose kind is `INT`, and `as_isize`
then sign-extends bit 60 and returns `-(2^60)` instead of `2^60`. -/
theorem C1_from_isize_roundtrip_fails_at_2_pow_60 :
    Val.from_isize (2 ^ 60) = .word (2 ^ 63 + 1) ∧
    (Val.from_isize (2 ^ 60)).valkind = .INT ∧
    (Val.from_isize (2 ^ 60)).as_isize = -(2 ^ 60) := by
  refine ⟨?_, ?_, ?_⟩ <;> decide

/-- C2: the `Send` arm populates the new frame with the arguments in
*reversed* order.  With the operand stack `[a2, a1, rcv]` (top-first; the
arguments were pushed left-to-right, so `a1 = 1` is the first argument and
`a2 = 2` the second) and a resolved user method with four variable slots,
the pushed frame's closure holds `[rcv, a2, a1, illegal]`: slot 1 holds the
*second* argument, not the first as the claim requires. -/
theorem C2_send_stores_arguments_reversed :
    sendStep (fun _ _ => some (.user 4 7)) ⟨[⟨none, 0⟩], [[]]⟩ [⟨0, 0⟩]
        [.int 2, .int 1, .int 10] "at:put:" 2 0 0
      = some (.callUser 7 [] [⟨0, 1⟩, ⟨0, 0⟩]
          ⟨[⟨none, 0⟩, ⟨none, 1⟩], [[], [.int 10, .int 2, .int 1, .illegal]]⟩) ∧
    [RVal.int 10, .int 2, .int 1, .illegal][1]? = some (.int 2) ∧
    RVal.int 2 ≠ RVal.int 1 := by
  refine ⟨?_, ?_, ?_⟩ <;> decide

/-- `findFrame` characterisation, positive case: a hit is the *first* frame
(top towards bottom) whose closure handle equals the target. -/
theorem findFrame_some_spec (t : Nat) :
    ∀ (frames : List Frame) (k : Nat) (f : Frame),
      findFrame frames t = some (k, f) →
      frames[k]? = some f ∧ f.closure = t ∧
        ∀ (j : Nat) (g : Frame), j < k → frames[j]? = some g → g.closure ≠ t := by
  intro frames
  induction frames with
  | nil => intro k f h; simp [findFrame] at h
  | cons a l ih =>
    intro k f h
    by_cases hc : a.closure = t
    · rw [findFrame, if_pos hc] at h
      injection h with h
      injection h with hk hf
      subst hk; subst hf
      exact ⟨List.getElem?_cons_zero, hc, fun j g hj => absurd hj (Nat.not_lt_zero j)⟩
    · rw [findFrame, if_neg hc] at h
      cases hfl : findFrame l t with
      | none => rw [hfl] at h; exact absurd h (by simp)
      | some p =>
        obtain ⟨k', g⟩ := p
        rw [hfl] at h
        injection h with h
        injection h with hk hf
        obtain ⟨h1, h2, h3⟩ := ih k' g hfl
        subst hk; subst hf
        refine ⟨by rw [List.getElem?_cons_succ]; exact h1, h2, ?_⟩
        intro j g' hj hget
        cases j with
        | zero =>
          rw [List.getElem?_cons_zero] at hget
          injection hget with hget
          subst hget; exact hc
        | succ j' =>
          rw [List.getElem?_cons_succ] at hget
          exact h3 j' g' (Nat.lt_of_succ_lt_succ hj) hget

/-- `findFrame` characterisation, negative case: no frame on the stack has
the target closure. -/
theorem findFrame_none_spec (t : Nat) :
    ∀ (frames : List Frame), findFrame frames t = none →
      ∀ (j : Nat) (g : Frame), frames[j]? = some g → g.closure ≠ t := by
  intro frames
  induction frames with
  | nil => intro _ j g hget; simp at hget
  | cons a l ih =>
    intro h j g hget
    by_cases hc : a.closure = t
    · rw [findFrame, if_pos hc] at h; exact absurd h (by simp)
    · rw [findFrame, if_neg hc] at h
      cases hfl : findFrame l t with
      | some p =>
        obtain ⟨k', g'⟩ := p
        rw [hfl] at h; exact absurd h (by simp)
      | none =>
        cases j with
        | zero =>
          rw [List.getElem?_cons_zero] at hget
          injection hget with hget
          subst hget; exact hc
        | succ j' =>
          rw [List.getElem?_cons_succ] at hget
          exact ih hfl j' g hget

/-- C3: when `ClosureReturn d` executes (stack nonempty, current frame and
its `d`-th ancestor closure resolved), either there is a first frame — from
the top of the frame stack towards the bottom — whose closure is
pointer-identical to that ancestor, the operand stack is truncated to that
frame's recorded `sp` with the return value pushed on top, and
`ClosureReturn(frame_depth)` is reported; or no frame matches and the program
halts with the `Return from escaped block` panic. -/
theorem C3_closure_return_first_matching_frame
    (st : Store) (frames : List Frame) (v : RVal) (rest : List RVal)
    (d : Nat) (cf : Frame) (target : Nat) (r : CRStep)
    (hcf : frames.head? = some cf)
    (ht : closureChain st cf.closure d = some target)
    (hr : closureReturnStep st frames (v :: rest) d = some r) :
    (∃ k f, frames[k]? = some f ∧ f.closure = target ∧
        (∀ (j : Nat) (g : Frame), j < k → frames[j]? = some g → g.closure ≠ target) ∧
        r = .ret k (v :: stackTruncate rest f.sp)) ∨
    ((∀ (j : Nat) (g : Frame), frames[j]? = some g → g.closure ≠ target) ∧
        r = .escapedBlock) := by
  unfold closureReturnStep at hr
  rw [hcf] at hr
  simp only [Option.bind_some] at hr
  rw [ht] at hr
  simp only [Option.bind_some] at hr
  cases hff : findFrame frames target with
  | some p =>
    rw [hff] at hr
    obtain ⟨h1, h2, h3⟩ := findFrame_some_spec target frames p.1 p.2 (by rw [hff])
    left
    exact ⟨p.1, p.2, h1, h2, h3, by simpa using hr.symm⟩
  | none =>
    rw [hff] at hr
    right
    exact ⟨findFrame_none_spec target frames hff, by simpa using hr.symm⟩

/-- C3 witness: one frame whose closure is the block's parent closure; the
stack is truncated to its `sp = 2` and the value `5` pushed back. -/
theorem C3_closure_return_first_matching_frame_witness :
    (∃ k f, ([⟨2, 0⟩] : List Frame)[k]? = some f ∧ f.closure = 0 ∧
        (∀ (j : Nat) (g : Frame), j < k → ([⟨2, 0⟩] : List Frame)[j]? = some g →
          g.closure ≠ 0) ∧
        CRStep.ret 0 [RVal.int 5, .int 2, .int 3]
          = .ret k (RVal.int 5 :: stackTruncate [RVal.int 1, .int 2, .int 3] f.sp)) ∨
    ((∀ (j : Nat) (g : Frame), ([⟨2, 0⟩] : List Frame)[j]? = some g → g.closure ≠ 0) ∧
        CRStep.ret 0 [RVal.int 5, .int 2, .int 3] = .escapedBlock) :=
  C3_closure_return_first_matching_frame ⟨[⟨none, 0⟩], [[]]⟩ [⟨2, 0⟩]
    (.int 5) [.int 1, .int 2, .int 3] 0 ⟨2, 0⟩ 0
    (.ret 0 [.int 5, .int 2, .int 3]) rfl rfl (by decide)

/-- C4: a send that resolves to `Primitive::Restart` rewinds `pc` to the
method's entry (`meth_start_pc`), truncates the operand stack to the height
it had at method entry (`stack_start`), and neither pushes nor pops a frame
(only the top frame's `sp` is refreshed).  The stack at the send is
`pre ++ rcv :: post` top-first with `pre` the drained arguments. -/
theorem C4_restart_rewinds_pc_and_truncates_stack
    (resolve : RVal → String → Option MethBody) (st : Store)
    (frames : List Frame) (cf : Frame) (pre post : List RVal) (rcv : RVal)
    (name : String) (meth_start_pc stack_start : Nat)
    (hcf : frames.head? = some cf)
    (hres : resolve rcv name = some (.primitive .restart))
    (hss : stack_start ≤ post.length) :
    sendStep resolve st frames (pre ++ rcv :: post) name pre.length
        meth_start_pc stack_start
      = some (.restart meth_start_pc (stackTruncate post stack_start)
          (setSpTop frames post.length)) ∧
    stackTruncate post stack_start
      = stackTruncate (pre ++ rcv :: post) stack_start ∧
    (stackTruncate post stack_start).length = stack_start ∧
    (setSpTop frames post.length).length = frames.length := by
  refine ⟨?_, ?_, ?_, ?_⟩
  · unfold sendStep
    rw [if_pos (by simp only [List.length_append, List.length_cons]; omega)]
    rw [List.drop_left' (by rfl)]
    rw [hcf]
    simp only [hres]
  · have hsplit : pre ++ rcv :: post = (pre ++ [rcv]) ++ post := by simp
    rw [stackTruncate, stackTruncate, hsplit]
    have hlen : ((pre ++ [rcv]) ++ post).length - stack_start
        = (pre ++ [rcv]).length + (post.length - stack_start) := by
      simp; omega
    rw [hlen, ← List.drop_drop, List.drop_left]
  · rw [stackTruncate, List.length_drop]; omega
  · cases frames with
    | nil => rfl
    | cons f fs => rfl

/-- C4 witness: a concrete restart send — `pc` rewinds to 3 and the stack is
cut back to the single entry value. -/
theorem C4_restart_rewinds_pc_and_truncates_stack_witness :
    sendStep (fun _ _ => some (.primitive .restart)) ⟨[], []⟩ [⟨0, 0⟩]
        ([RVal.int 9] ++ RVal.int 8 :: [RVal.int 7, RVal.int 6]) "restart"
        [RVal.int 9].length 3 1
      = some (.restart 3 (stackTruncate [RVal.int 7, RVal.int 6] 1)
          (setSpTop [⟨0, 0⟩] [RVal.int 7, RVal.int 6].length)) ∧
    stackTruncate [RVal.int 7, RVal.int 6] 1
      = stackTruncate ([RVal.int 9] ++ RVal.int 8 :: [RVal.int 7, RVal.int 6]) 1 ∧
    (stackTruncate [RVal.int 7, RVal.int 6] 1).length = 1 ∧
    (setSpTop [⟨0, 0⟩] [RVal.int 7, RVal.int 6].length).length
      = ([⟨0, 0⟩] : List Frame).length :=
  C4_restart_rewinds_pc_and_truncates_stack (fun _ _ => some (.primitive .restart))
    ⟨[], []⟩ [⟨0, 0⟩] ⟨0, 0⟩ [RVal.int 9] [RVal.int 7, RVal.int 6] (.int 8)
    "restart" 3 1 rfl rfl (by decide)

/-- A successful optional-index lookup witnesses that the index is in range. -/
theorem getElem?_some_lt {α : Type} {l : List α} {n : Nat} {a : α}
    (h : l[n]? = some a) : n < l.length := by
  obtain ⟨hl, _⟩ := List.getElem?_eq_some.mp h
  exact hl

/-- C5: `c_block` emits, right after the code of the body's expressions
(whatever `cExprsLoop` produced into the buffer `st2`), the epilogue
`Pop; VarLookup(0, 0); Return` when compiling a method, and just `Return`
when compiling a block — so a method falls back to `self` and a block leaves
its last expression's value. -/
theorem C5_method_and_block_epilogue
    (parseIsize : String → Option Int) (parseF64 : String → Option String)
    (is_method : Bool) (params vars_lexemes : List String) (exprs : List Expr)
    (st : CState) (vars1 vars2 : List (String × Nat)) (nv ms ms0 : Nat)
    (st2 stF : CState)
    (hv1 : processVars (if is_method then [("self", 0)] else []) params
      = .ok vars1)
    (hv2 : processVars vars1 vars_lexemes = .ok vars2)
    (hloop : cExprsLoop parseIsize parseF64 exprs 0
        { st with varsStack := st.varsStack ++ [vars2] } = .ok (ms0, st2))
    (hcb : cBlock parseIsize parseF64 is_method params vars_lexemes exprs st
        = .ok ((nv, ms), stF)) :
    stF.instrs = st2.instrs
      ++ (if is_method then [Instr.pop, Instr.varLookup 0 0] else [])
      ++ [Instr.ret] := by
  unfold cBlock at hcb
  simp only [hv1, hv2, hloop] at hcb
  cases is_method with
  | false =>
    simp only [Bool.false_eq_true, if_false] at hcb ⊢
    injection hcb with hcb
    obtain ⟨-, hst⟩ := Prod.mk.injEq .. ▸ hcb
    subst hst
    simp [pushInstr]
  | true =>
    simp only [if_true] at hcb ⊢
    injection hcb with hcb
    obtain ⟨-, hst⟩ := Prod.mk.injEq .. ▸ hcb
    subst hst
    simp [pushInstr]

/-- C5 witness: a method body with no expressions compiles to exactly
`Pop; VarLookup(0, 0); Return`. -/
theorem C5_method_and_block_epilogue_witness :
    (CState.mk [Instr.pop, Instr.varLookup 0 0, Instr.ret] [] [] [] [[]] 0).instrs
      = (CState.mk [] [] [] [] [[], [("self", 0)]] 0).instrs
        ++ (if true then [Instr.pop, Instr.varLookup 0 0] else [])
        ++ [Instr.ret] :=
  C5_method_and_block_epilogue (fun _ => none) (fun _ => none) true [] [] []
    (CState.mk [] [] [] [] [[]] 0) [("self", 0)] [("self", 0)] 1 1 0
    (CState.mk [] [] [] [] [[], [("self", 0)]] 0)
    (CState.mk [Instr.pop, Instr.varLookup 0 0, Instr.ret] [] [] [] [[]] 0)
    rfl rfl (by simp [cExprsLoop])
    (by simp [cBlock, cExprsLoop, processVars, processVar, pushInstr])

/-- C6 counterexample: two *distinct* string objects (heap indices 0 and 1)
with equal contents and equal `is_str` flags — `ref_equals` answers `true`
even though they are not the identical object. -/
theorem C6_ref_equals_true_for_distinct_strings :
    StringObj.ref_equals [⟨"a", true⟩, ⟨"a", true⟩] 0 1 = .ok true ∧
    (0 : Nat) ≠ 1 := by
  exact ⟨rfl, by decide⟩

/-- C6 amended: for strings and symbols `ref_equals` is `true` exactly when
the `is_str` flags agree and the contents agree (identity plays no role);
for every other object the default `ref_equals` is reference identity. -/
theorem C6_ref_equals_contents_for_strings
    (heap : StrHeap) (a b : Nat) (sa sb : StringObj) (c d : Nat)
    (ha : heap[a]? = some sa) (hb : heap[b]? = some sb) :
    (StringObj.ref_equals heap a b = .ok true
      ↔ sa.is_str = sb.is_str ∧ sa.s = sb.s) ∧
    (objRefEqualsDefault c d = true ↔ c = d) := by
  constructor
  · unfold StringObj.ref_equals
    rw [ha, hb]
    simp [Bool.and_eq_true, beq_iff_eq]
  · simp [objRefEqualsDefault]

/-- C6 witness: a string and a symbol with different contents compare
unequal, and the identity default compares an index with itself. -/
theorem C6_ref_equals_contents_for_strings_witness :
    (StringObj.ref_equals [⟨"a", true⟩, ⟨"b", false⟩] 0 1 = .ok true
      ↔ (⟨"a", true⟩ : StringObj).is_str = (⟨"b", false⟩ : StringObj).is_str
          ∧ (⟨"a", true⟩ : StringObj).s = (⟨"b", false⟩ : StringObj).s) ∧
    (objRefEqualsDefault 3 3 = true ↔ 3 = 3) :=
  C6_ref_equals_contents_for_strings [⟨"a", true⟩, ⟨"b", false⟩] 0 1
    ⟨"a", true⟩ ⟨"b", false⟩ 3 3 rfl rfl

/-- C7: the source's conjunctive bounds test never fires, so `at:`/`at:put:`
never return `IndexOutOfBounds`; on the out-of-bounds index 2 of a length-1
array, `at` panics on the vector indexing (and `put` likewise on index 3)
instead of producing the error the claim requires. -/
theorem C7_array_bounds_check_never_fires :
    ArrayObj.at ⟨[RVal.int 7], 1⟩ 2 = .crash ∧
    ArrayObj.at ⟨[RVal.int 7], 1⟩ 2 ≠ .err .indexOutOfBounds ∧
    ArrayObj.put ⟨[RVal.int 7], 1⟩ 3 (.int 8) = .crash ∧
    ∀ index length arrLen : Nat, arrayBoundsErr index length arrLen = false := by
  refine ⟨by decide, by decide, by decide, ?_⟩
  intro i L A
  unfold arrayBoundsErr
  rcases Nat.lt_or_ge i 1 with h | h
  · have h0 : i = 0 := by omega
    subst h0
    simp
  · simp [Nat.not_lt.mpr h]

/-- After a successful `storeSetVar`, reading the same slot through the same
closure handle yields the written value. -/
theorem storeSetVar_get (st : Store) (cid n : Nat) (v : RVal) (st' : Store)
    (h : storeSetVar st cid n v = some st') :
    storeGetVar st' cid n = some v := by
  unfold storeSetVar at h
  cases hc : st.closures[cid]? with
  | none => simp [hc] at h
  | some c =>
    simp only [hc] at h
    cases hvs : st.varss[c.vars]? with
    | none => simp [hvs] at h
    | some vs =>
      simp only [hvs] at h
      by_cases hlt : n < vs.length
      · rw [if_pos hlt] at h
        injection h with h
        subst h
        unfold storeGetVar
        simp only [hc, List.getElem?_set_eq_of_lt _ (getElem?_some_lt hvs)]
        exact List.getElem?_set_eq_of_lt v hlt
      · rw [if_neg hlt] at h
        exact absurd h (by simp)

/-- C8: executing `VarSet(d, n)` or `InstVarSet(n)` peeks the top of the
operand stack: afterwards the stack is exactly what it was (same height,
same top), and the designated closure slot / instance-variable slot holds
the peeked value. -/
theorem C8_varset_and_instvarset_peek_not_pop
    (st : Store) (frames : List Frame) (stack : List RVal) (d n : Nat)
    (insts : List (List RVal)) (rcv : Nat)
    (st' : Store) (stack₁ stack₂ : List RVal) (insts' : List (List RVal))
    (cf : Frame) (cid : Nat) (v : RVal) (ivars : List RVal)
    (htop : stack.head? = some v)
    (hcf : frames.head? = some cf)
    (hcid : closureChain st cf.closure d = some cid)
    (hiv : insts[rcv]? = some ivars)
    (h1 : varSetStep st frames stack d n = some (st', stack₁))
    (h2 : instVarSetStep insts rcv stack n = some (insts', stack₂)) :
    stack₁ = stack ∧ stack₂ = stack ∧
    storeGetVar st' cid n = some v ∧
    ∃ ivars', insts'[rcv]? = some ivars' ∧ ivars'[n]? = some v := by
  cases stack with
  | nil => exact absurd htop (by simp)
  | cons w rest =>
    have hw : w = v := by simpa using htop
    subst hw
    unfold varSetStep at h1
    simp only [hcf] at h1
    unfold instVarSetStep at h2
    simp only [hiv] at h2
    cases hvs : Frame.var_set st cf d n w with
    | none => simp [hvs] at h1
    | some stX =>
      simp only [hvs] at h1
      injection h1 with h1
      obtain ⟨hst, hstk⟩ := Prod.mk.injEq .. ▸ h1
      subst hst; subst hstk
      unfold Frame.var_set at hvs
      simp only [hcid] at hvs
      cases hset : instVarSet ivars n w with
      | none => simp [hset] at h2
      | some ivarsX =>
        simp only [hset] at h2
        injection h2 with h2
        obtain ⟨hin, hsk⟩ := Prod.mk.injEq .. ▸ h2
        subst hin; subst hsk
        unfold instVarSet at hset
        by_cases hnl : n < ivars.length
        · rw [if_pos hnl] at hset
          injection hset with hset
          subst hset
          refine ⟨rfl, rfl, storeSetVar_get st cid n w _ hvs, ?_⟩
          refine ⟨ivars.set n w, ?_, List.getElem?_set_eq_of_lt w hnl⟩
          exact List.getElem?_set_eq_of_lt _ (getElem?_some_lt hiv)
        · rw [if_neg hnl] at hset
          exact absurd hset (by simp)

/-- C8 witness: a one-slot closure and a one-slot instance; after both set
steps the stack still is `[9]` and both slots hold `9`. -/
theorem C8_varset_and_instvarset_peek_not_pop_witness :
    [RVal.int 9] = [RVal.int 9] ∧ [RVal.int 9] = [RVal.int 9] ∧
    storeGetVar ⟨[⟨none, 0⟩], [[.int 9]]⟩ 0 0 = some (.int 9) ∧
    ∃ ivars', ([[RVal.int 9]] : List (List RVal))[0]? = some ivars' ∧
      ivars'[0]? = some (.int 9) :=
  C8_varset_and_instvarset_peek_not_pop ⟨[⟨none, 0⟩], [[.illegal]]⟩ [⟨0, 0⟩]
    [.int 9] 0 0 [[.illegal]] 0 ⟨[⟨none, 0⟩], [[.int 9]]⟩ [.int 9] [.int 9]
    [[.int 9]] ⟨0, 0⟩ 0 (.int 9) [.illegal] rfl rfl rfl rfl (by decide) (by decide)

/-- C9: `var_lookup(d, n)` answers `UnassignedVar(n)` exactly when slot `n`
of the closure `d` levels up the chain holds the illegal value, and answers
the stored value otherwise; `var_set(d, n, w)` succeeds and stores `w` into
that slot. -/
theorem C9_var_lookup_unassigned_iff_var_set_stores
    (st : Store) (f : Frame) (d n : Nat) (cid : Nat) (slotv w : RVal)
    (c : Closure) (vs : List RVal)
    (hchain : closureChain st f.closure d = some cid)
    (hc : st.closures[cid]? = some c)
    (hvs : st.varss[c.vars]? = some vs)
    (hslot : vs[n]? = some slotv) :
    (Frame.var_lookup st f d n = some (.error (.unassignedVar n))
      ↔ slotv = .illegal) ∧
    (slotv ≠ .illegal → Frame.var_lookup st f d n = some (.ok slotv)) ∧
    (∃ st', Frame.var_set st f d n w = some st'
      ∧ storeGetVar st' cid n = some w) := by
  have hget : storeGetVar st cid n = some slotv := by
    unfold storeGetVar
    simp only [hc, hvs]
    exact hslot
  have hlk : Frame.var_lookup st f d n
      = some (if slotv.is_illegal then .error (.unassignedVar n)
          else .ok slotv) := by
    unfold Frame.var_lookup
    simp only [hchain, hget]
  refine ⟨?_, ?_, ?_⟩
  · rw [hlk]
    cases slotv <;> simp [RVal.is_illegal]
  · intro hne
    rw [hlk]
    cases slotv with
    | illegal => exact absurd rfl hne
    | int i => rfl
    | obj o => rfl
  · have hsv : storeSetVar st cid n w
        = some { st with varss := st.varss.set c.vars (vs.set n w) } := by
      unfold storeSetVar
      simp only [hc, hvs]
      show (if n < vs.length
          then some { st with varss := st.varss.set c.vars (vs.set n w) }
          else none : Option Store)
        = some { st with varss := st.varss.set c.vars (vs.set n w) }
      rw [if_pos (getElem?_some_lt hslot)]
    refine ⟨_, ?_, storeSetVar_get st cid n w _ hsv⟩
    unfold Frame.var_set
    simp only [hchain]
    exact hsv

/-- C9 witness: a two-slot closure whose slot 0 is illegal and slot 1 holds
`4`; looking slot 0 up is `UnassignedVar(0)`, and writing `7` stores `7`. -/
theorem C9_var_lookup_unassigned_iff_var_set_stores_witness :
    (Frame.var_lookup ⟨[⟨none, 0⟩], [[RVal.illegal, .int 4]]⟩ ⟨0, 0⟩ 0 0
      = some (.error (.unassignedVar 0)) ↔ RVal.illegal = RVal.illegal) ∧
    (RVal.illegal ≠ RVal.illegal →
      Frame.var_lookup ⟨[⟨none, 0⟩], [[RVal.illegal, .int 4]]⟩ ⟨0, 0⟩ 0 0
        = some (.ok RVal.illegal)) ∧
    (∃ st', Frame.var_set ⟨[⟨none, 0⟩], [[RVal.illegal, .int 4]]⟩ ⟨0, 0⟩ 0 0
        (RVal.int 7) = some st' ∧ storeGetVar st' 0 0 = some (.int 7)) :=
  C9_var_lookup_unassigned_iff_var_set_stores
    ⟨[⟨none, 0⟩], [[RVal.illegal, .int 4]]⟩ ⟨0, 0⟩ 0 0 0 RVal.illegal
    (.int 7) ⟨none, 0⟩ [RVal.illegal, .int 4] rfl rfl rfl rfl

/-- C10 counterexample: both operands are (distinct) empty strings; the code
returns the *argument* object (index 1), not the receiver (index 0) that the
claim's «argument empty ⇒ result is the receiver» clause requires. -/
theorem C10_concat_both_empty_returns_argument :
    StringObj.concatenate [⟨"", true⟩, ⟨"", true⟩] 0 1
      = .ok (1, [⟨"", true⟩, ⟨"", true⟩]) ∧
    (1 : Nat) ≠ 0 := by
  exact ⟨rfl, by decide⟩

/-- C10 amended: if the receiver is empty the result is the argument value
itself (even when both are empty); otherwise, if the argument is empty, the
result is the receiver itself; otherwise the result is a freshly allocated
string — an index not present in the old heap — whose contents are the
receiver's bytes followed by the argument's. -/
theorem C10_concatenate_characterised
    (heap : StrHeap) (a b : Nat) (sa sb : StringObj)
    (ha : heap[a]? = some sa) (hb : heap[b]? = some sb) :
    (sa.s.isEmpty = true → StringObj.concatenate heap a b = .ok (b, heap)) ∧
    (sa.s.isEmpty = false → sb.s.isEmpty = true →
      StringObj.concatenate heap a b = .ok (a, heap)) ∧
    (sa.s.isEmpty = false → sb.s.isEmpty = false →
      StringObj.concatenate heap a b
        = .ok (heap.length, heap ++ [⟨sa.s ++ sb.s, true⟩]) ∧
      heap[heap.length]? = none ∧
      (heap ++ [⟨sa.s ++ sb.s, true⟩])[heap.length]?
        = some ⟨sa.s ++ sb.s, true⟩) := by
  unfold StringObj.concatenate
  simp only [ha, hb]
  refine ⟨?_, ?_, ?_⟩
  · intro h1
    rw [if_pos h1]
  · intro h1 h2
    rw [if_neg (by rw [h1]; exact Bool.false_ne_true), if_pos h2]
  · intro h1 h2
    rw [if_neg (by rw [h1]; exact Bool.false_ne_true),
      if_neg (by rw [h2]; exact Bool.false_ne_true)]
    exact ⟨rfl, List.getElem?_length heap, List.getElem?_concat_length heap _⟩

/-- C10 witness: `"x" concatenate: "yz"` on a two-object heap allocates the
fresh string `"xyz"` at index 2. -/
theorem C10_concatenate_characterised_witness :
    ((⟨"x", true⟩ : StringObj).s.isEmpty = true →
      StringObj.concatenate [⟨"x", true⟩, ⟨"yz", false⟩] 0 1
        = .ok (1, [⟨"x", true⟩, ⟨"yz", false⟩])) ∧
    ((⟨"x", true⟩ : StringObj).s.isEmpty = false →
      (⟨"yz", false⟩ : StringObj).s.isEmpty = true →
      StringObj.concatenate [⟨"x", true⟩, ⟨"yz", false⟩] 0 1
        = .ok (0, [⟨"x", true⟩, ⟨"yz", false⟩])) ∧
    ((⟨"x", true⟩ : StringObj).s.isEmpty = false →
      (⟨"yz", false⟩ : StringObj).s.isEmpty = false →
      StringObj.concatenate [⟨"x", true⟩, ⟨"yz", false⟩] 0 1
        = .ok (([⟨"x", true⟩, ⟨"yz", false⟩] : StrHeap).length,
            [⟨"x", true⟩, ⟨"yz", false⟩]
              ++ [⟨(⟨"x", true⟩ : StringObj).s ++ (⟨"yz", false⟩ : StringObj).s, true⟩]) ∧
      ([⟨"x", true⟩, ⟨"yz", false⟩] : StrHeap)[([⟨"x", true⟩, ⟨"yz", false⟩] : StrHeap).length]? = none ∧
      (([⟨"x", true⟩, ⟨"yz", false⟩] : StrHeap)
          ++ [⟨(⟨"x", true⟩ : StringObj).s ++ (⟨"yz", false⟩ : StringObj).s, true⟩])[
          ([⟨"x", true⟩, ⟨"yz", false⟩] : StrHeap).length]?
        = some ⟨(⟨"x", true⟩ : StringObj).s ++ (⟨"yz", false⟩ : StringObj).s, true⟩) :=
  C10_concatenate_characterised [⟨"x", true⟩, ⟨"yz", false⟩] 0 1
    ⟨"x", true⟩ ⟨"yz", false⟩ rfl rfl

end Yksom
